import Mathlib

/-
Verification of `ibm/resource_ibm_resource_instance.go` (terraform-provider-ibm):
a shallow embedding of the resource-instance lifecycle logic — deployment
filtering, parameter coercion, the polling state tables and refresh callbacks,
and the Exists/Delete/Read projections — together with theorems about the
claims of the module's specification.

Machine integers do not occur in this module; all data is strings, booleans,
lists and maps.  Fallible Go code (nil-pointer dereferences, out-of-range
slice indexing) is embedded with `Option` / explicit panic constructors.
-/

/-! ### Go string primitives

The Go code uses `strings.HasPrefix/HasSuffix/TrimLeft/TrimRight/Trim/Split/
Contains`.  They are embedded on the character-list level so every definition
is executable and kernel-reducible.  Each `Trim` variant takes a one-character
cutset, which is the only way the source calls them. -/

/-- Go `strings.HasPrefix(s, pre)` for the one-character prefixes the source
uses. -/
def goStartsWith (s pre : String) : Bool :=
  pre.data.isPrefixOf s.data

/-- Go `strings.HasSuffix(s, suf)`. -/
def goEndsWith (s suf : String) : Bool :=
  suf.data.isSuffixOf s.data

/-- Go `strings.TrimLeft(s, cutset)` with a one-character cutset `c`: removes
ALL leading occurrences of `c` (not just one). -/
def trimLeftChar (s : String) (c : Char) : String :=
  String.mk (s.data.dropWhile (fun a => a == c))

/-- Go `strings.TrimRight(s, cutset)` with a one-character cutset `c`: removes
ALL trailing occurrences of `c`. -/
def trimRightChar (s : String) (c : Char) : String :=
  String.mk ((s.data.reverse.dropWhile (fun a => a == c)).reverse)

/-- Go `strings.Trim(s, cutset)` with a one-character cutset `c`. -/
def trimChar (s : String) (c : Char) : String :=
  trimRightChar (trimLeftChar s c) c

/-- Go `strings.Split` on a one-character separator, character-list level.
Go's `Split("", sep)` returns `[""]`, which is the `[[]]` base case here. -/
def splitOnChar (c : Char) : List Char → List (List Char)
  | [] => [[]]
  | a :: rest =>
    if a == c then
      [] :: splitOnChar c rest
    else
      match splitOnChar c rest with
      | [] => [[a]]
      | h :: t => (a :: h) :: t

/-- Go `strings.Split(s, sep)` for a one-character separator. -/
def goSplit (s : String) (c : Char) : List String :=
  (splitOnChar c s.data).map String.mk

/-- Helper for Go `strings.Contains`: does `sub` occur as a contiguous
sub-list of `s`? -/
def listContainsSub (s sub : List Char) : Bool :=
  match s with
  | [] => sub.isPrefixOf ([] : List Char)
  | a :: t => sub.isPrefixOf (a :: t) || listContainsSub t sub

/-- Go `strings.Contains(s, sub)`. -/
def goContains (s sub : String) : Bool :=
  listContainsSub s.data sub.data

/-- The substring relation as a proposition: `sub` occurs contiguously in
`s`.  `goContains` decides it (see `goContains_iff`). -/
def SubstringOf (sub s : String) : Prop :=
  sub.data <:+: s.data

instance (sub s : String) : Decidable (SubstringOf sub s) :=
  List.decidableInfix sub.data s.data

/-! ### Status-string constants (source lines 23-31) -/

def rsInstanceSuccessStatus : String := "active"
def rsInstanceProgressStatus : String := "in progress"
def rsInstanceProvisioningStatus : String := "provisioning"
def rsInstanceInactiveStatus : String := "inactive"
def rsInstanceFailStatus : String := "failed"
def rsInstanceRemovedStatus : String := "removed"
def rsInstanceReclamation : String := "pending_reclamation"

/-! ### Deployment descriptors and the deployment filter (source lines 874-887) -/

/-- `models.ServiceDeployment.Metadata.Deployment` — carries the target
location. -/
structure ServiceDeploymentTarget where
  Location : String
deriving DecidableEq, Repr

/-- `models.ServiceDeployment.Metadata` — resource-controller compatibility
flag plus the deployment target. -/
structure ServiceDeploymentMetadata where
  RCCompatible : Bool
  Deployment : ServiceDeploymentTarget
deriving DecidableEq, Repr

/-- `models.ServiceDeployment` as the filter consumes it. -/
structure ServiceDeployment where
  CatalogCRN : String
  Metadata : ServiceDeploymentMetadata
deriving DecidableEq, Repr

/-- `filterDeployments` (source lines 874-887).  The loop appends each
RC-compatible descriptor's location to the `supportedLocations` map (a set,
since Go map iteration order is unobservable here) and each RC-compatible
descriptor whose location equals `location` to `supportedDeployments`,
preserving input order. -/
def filterDeployments : List ServiceDeployment → String → List ServiceDeployment × Finset String
  | [], _ => ([], ∅)
  | d :: rest, location =>
    let acc := filterDeployments rest location
    if d.Metadata.RCCompatible then
      (if d.Metadata.Deployment.Location = location then d :: acc.1 else acc.1,
       insert d.Metadata.Deployment.Location acc.2)
    else
      acc

/-! ### Parameter coercion (source lines 427-449 in Create, 654-675 in Update) -/

/-- The typed values a coerced parameter can take: Go `interface x7b x7d`
holding a string, a bool, or a `[]string`. -/
inductive ParamValue where
  | str (s : String)
  | boolean (b : Bool)
  | strList (l : List String)
deriving DecidableEq, Repr

/-- The per-entry value coercion both Create and Update perform on the raw
`parameters` map (source lines 430-446 and 657-673):
`strconv.ParseBool` on the literal strings `"true"`/`"false"`; bracketed
values trimmed with `strings.TrimLeft`/`TrimRight`, split on `","` and each
element trimmed with `strings.Trim(a, "\"")`; everything else passed
through. -/
def coerceValue (v : String) : ParamValue :=
  if v == "true" || v == "false" then
    ParamValue.boolean (v == "true")
  else if goStartsWith v "[" && goEndsWith v "]" then
    let trimLeft := trimLeftChar v '['
    let trimRight := trimRightChar trimLeft ']'
    let array := goSplit trimRight ','
    ParamValue.strList (array.map (fun a => trimChar a '"'))
  else
    ParamValue.str v

/-- Claim-literal reading of the coercion ("has the brackets stripped"): the
leading `[` and the trailing `]` are removed — ONE character each — before
splitting.  Stated from the claim's words to compare with `coerceValue`. -/
def coerceValueClaim (v : String) : ParamValue :=
  if v = "true" then ParamValue.boolean true
  else if v = "false" then ParamValue.boolean false
  else if v.data.head? = some '[' ∧ v.data.getLast? = some ']' then
    let inner := String.mk (v.data.drop 1).dropLast
    ParamValue.strList ((goSplit inner ',').map (fun a => trimChar a '"'))
  else
    ParamValue.str v

/-- Removes every leading occurrence of `c`, by direct recursion. -/
def dropLeadingChar (c : Char) : List Char → List Char
  | [] => []
  | a :: rest => if a = c then dropLeadingChar c rest else a :: rest

/-- All leading occurrences of `c` stripped from `s`. -/
def stripAllLeading (s : String) (c : Char) : String :=
  String.mk (dropLeadingChar c s.data)

/-- All trailing occurrences of `c` stripped from `s`. -/
def stripAllTrailing (s : String) (c : Char) : String :=
  String.mk ((dropLeadingChar c s.data.reverse).reverse)

/-- All leading and all trailing occurrences of `c` stripped from `s`. -/
def stripAllBoth (s : String) (c : Char) : String :=
  stripAllTrailing (stripAllLeading s c) c

/-- The amended coercion claim, stated with independent machinery: a value
that starts with `[` and ends with `]` has ALL leading `[` characters and ALL
trailing `]` characters stripped, is split on `,`, and has all leading and
trailing double-quote characters trimmed from each element. -/
def coerceValueAmended (v : String) : ParamValue :=
  if v = "true" then ParamValue.boolean true
  else if v = "false" then ParamValue.boolean false
  else if v.data.head? = some '[' ∧ v.data.getLast? = some ']' then
    let inner := stripAllTrailing (stripAllLeading v '[') ']'
    ParamValue.strList ((goSplit inner ',').map (fun a => stripAllBoth a '"'))
  else
    ParamValue.str v

/-! ### The Go parameter map

Go's `map[string]interface x7b x7d` is embedded as an association list whose
lookup returns the most recent assignment: `mapSet` models `m[k] = v`
(last write wins) and `mapLookup` models `m[k]`. -/

def mapSet (m : List (String × ParamValue)) (k : String) (v : ParamValue) :
    List (String × ParamValue) :=
  (k, v) :: m.filter (fun kv => !(kv.1 == k))

def mapLookup (m : List (String × ParamValue)) (k : String) : Option ParamValue :=
  match m.find? (fun kv => kv.1 == k) with
  | some kv => some kv.2
  | none => none

/-! ### The fetched resource instance

`rc.ResourceInstance` restricted to the fields this module reads.  Pointer
fields that may be nil are `Option`; `.String()` on such a pointer is
`tsString`, whose `none` case is the nil-pointer dereference panic. -/

structure ResourceInstance where
  ID : String
  State : String
  RestoredAt : Option String
  ScheduledReclaimAt : Option String
  DeletedAt : Option String
  UpdatedAt : Option String
  CreatedAt : Option String
  Parameters : List (String × ParamValue)
deriving DecidableEq, Repr

/-- The outcome of `rsConClient.GetResourceInstance`: either an instance, or
an error carrying the response status code when a response exists (`none`
models a nil `resp`). -/
inductive GetInstanceResult where
  | ok (inst : ResourceInstance)
  | fetchErr (statusCode : Option Nat) (msg : String)
deriving DecidableEq, Repr

/-! ### Refresh callbacks and the polling engine -/

/-- What a `StateChangeConf.Refresh` invocation hands the polling engine:
a state string with a nil error, or a non-nil error. -/
inductive RefreshOutcome where
  | state (s : String)
  | refreshErr (msg : String)
deriving DecidableEq, Repr

/-- The Refresh closure of `waitForResourceInstanceCreate` (source lines
786-798): a 404 fetch is surfaced as an error saying the instance no longer
exists; any other fetch error is surfaced as an error; a fetched instance in
the `failed` state is surfaced as an error; otherwise the instance's state is
returned for classification. -/
def createRefresh (id : String) (fetch : GetInstanceResult) : RefreshOutcome :=
  match fetch with
  | GetInstanceResult.fetchErr code msg =>
    if code == some 404 then
      RefreshOutcome.refreshErr
        ("The resource instance " ++ id ++ " does not exist anymore: " ++ msg)
    else
      RefreshOutcome.refreshErr
        ("Get the resource instance " ++ id ++ " failed with resp code, err: " ++ msg)
  | GetInstanceResult.ok inst =>
    if inst.State == rsInstanceFailStatus then
      RefreshOutcome.refreshErr ("The resource instance " ++ id ++ " failed")
    else
      RefreshOutcome.state inst.State

/-- The Refresh closure of `waitForResourceInstanceUpdate` (source lines
820-832); same behaviour as the create refresh. -/
def updateRefresh (id : String) (fetch : GetInstanceResult) : RefreshOutcome :=
  match fetch with
  | GetInstanceResult.fetchErr code msg =>
    if code == some 404 then
      RefreshOutcome.refreshErr
        ("The resource instance " ++ id ++ " does not exist anymore: " ++ msg)
    else
      RefreshOutcome.refreshErr
        ("Get the resource instance " ++ id ++ " failed with resp code, err: " ++ msg)
  | GetInstanceResult.ok inst =>
    if inst.State == rsInstanceFailStatus then
      RefreshOutcome.refreshErr ("The resource instance " ++ id ++ " failed")
    else
      RefreshOutcome.state inst.State

/-- The Refresh closure of `waitForResourceInstanceDelete` (source lines
853-865).  On a 404 fetch it returns the state string
`rsInstanceSuccessStatus` (`"active"`) with a nil error and a nil instance;
otherwise as for create/update, with the `failed` state surfaced as a
failed-to-delete error. -/
def deleteRefresh (id : String) (fetch : GetInstanceResult) : RefreshOutcome :=
  match fetch with
  | GetInstanceResult.fetchErr code msg =>
    if code == some 404 then
      RefreshOutcome.state rsInstanceSuccessStatus
    else
      RefreshOutcome.refreshErr
        ("Get the resource instance " ++ id ++ " failed with resp code, err: " ++ msg)
  | GetInstanceResult.ok inst =>
    if inst.State == rsInstanceFailStatus then
      RefreshOutcome.refreshErr ("The resource instance " ++ id ++ " failed to delete")
    else
      RefreshOutcome.state inst.State

/-- How one polling step resolves. -/
inductive PollStep where
  | reachedTarget (s : String)
  | fatalError
  | keepPolling
  | unexpectedState (s : String)
deriving DecidableEq, Repr

/-- Modelled from the spec: the generic poll-until-terminal-state engine
(`resource.StateChangeConf`, an external collaborator not present under
`src/`) classifies each refresh result — an error is a permanent failure; a
state in `target` is success; a state in `pending` continues polling; any
other state is an immediate unexpected-state failure.  Membership is the
engine's loop of string comparisons. -/
def pollClassify (pending target : List String) (r : RefreshOutcome) : PollStep :=
  match r with
  | RefreshOutcome.refreshErr _ => PollStep.fatalError
  | RefreshOutcome.state s =>
    if target.any (fun t => s == t) then PollStep.reachedTarget s
    else if pending.any (fun t => s == t) then PollStep.keepPolling
    else PollStep.unexpectedState s

/-- Pending list of the create `StateChangeConf` (source line 784). -/
def createPendingStates : List String :=
  [rsInstanceProgressStatus, rsInstanceInactiveStatus, rsInstanceProvisioningStatus]

/-- Target list of the create `StateChangeConf` (source line 785). -/
def createTargetStates : List String :=
  [rsInstanceSuccessStatus]

/-- Pending list of the update `StateChangeConf` (source line 818). -/
def updatePendingStates : List String :=
  [rsInstanceProgressStatus, rsInstanceInactiveStatus]

/-- Target list of the update `StateChangeConf` (source line 819). -/
def updateTargetStates : List String :=
  [rsInstanceSuccessStatus]

/-- Pending list of the delete `StateChangeConf` (source line 851). -/
def deletePendingStates : List String :=
  [rsInstanceProgressStatus, rsInstanceInactiveStatus, rsInstanceSuccessStatus]

/-- Target list of the delete `StateChangeConf` (source line 852). -/
def deleteTargetStates : List String :=
  [rsInstanceRemovedStatus, rsInstanceReclamation]

/-- One polling step of `waitForResourceInstanceCreate`: the create refresh
classified against the create pending/target lists. -/
def waitForResourceInstanceCreateStep (id : String) (fetch : GetInstanceResult) : PollStep :=
  pollClassify createPendingStates createTargetStates (createRefresh id fetch)

/-- One polling step of `waitForResourceInstanceUpdate`. -/
def waitForResourceInstanceUpdateStep (id : String) (fetch : GetInstanceResult) : PollStep :=
  pollClassify updatePendingStates updateTargetStates (updateRefresh id fetch)

/-- One polling step of `waitForResourceInstanceDelete`. -/
def waitForResourceInstanceDeleteStep (id : String) (fetch : GetInstanceResult) : PollStep :=
  pollClassify deletePendingStates deleteTargetStates (deleteRefresh id fetch)

/-! ### Exists (source lines 747-771) -/

/-- What an Exists invocation produces: the boolean result, whether a non-nil
error was returned, and whether `d.SetId("")` was executed. -/
structure ExistsOutcome where
  found : Bool
  errReturned : Bool
  idCleared : Bool
deriving DecidableEq, Repr

/-- `resourceIBMResourceInstanceExists` after the fetch: a 404 is
`(false, nil)`; any other fetch error is `(false, err)`; a fetched instance
whose state contains `"removed"` or `rsInstanceReclamation` clears the stored
identifier and returns `(false, nil)`; otherwise the result is the comparison
of the fetched ID with the stored one, nothing cleared. -/
def resourceIBMResourceInstanceExists (instanceID : String) (fetch : GetInstanceResult) :
    ExistsOutcome :=
  match fetch with
  | GetInstanceResult.fetchErr code _ =>
    if code == some 404 then
      { found := false, errReturned := false, idCleared := false }
    else
      { found := false, errReturned := true, idCleared := false }
  | GetInstanceResult.ok inst =>
    if goContains inst.State "removed" || goContains inst.State rsInstanceReclamation then
      { found := false, errReturned := false, idCleared := true }
    else
      { found := inst.ID == instanceID, errReturned := false, idCleared := false }

/-! ### Delete (source lines 717-746) -/

/-- `rc.DeleteResourceInstanceOptions` as built by Delete. -/
structure DeleteResourceInstanceOptions where
  ID : String
  Recursive : Bool
deriving DecidableEq, Repr

/-- The options Delete submits (source lines 722-727): `recursive := true`. -/
def deleteResourceInstanceOptions (id : String) : DeleteResourceInstanceOptions :=
  { ID := id, Recursive := true }

/-- The outcome of `rsConClient.DeleteResourceInstance`: success, or an error
with the response status code when a response exists. -/
inductive DeleteCallResult where
  | ok
  | callErr (statusCode : Option Nat) (msg : String)
deriving DecidableEq, Repr

/-- The outcome of `waitForResourceInstanceDelete` as Delete consumes it. -/
inductive DeletePollResult where
  | pollOk
  | pollErr (msg : String)
deriving DecidableEq, Repr

/-- What a Delete invocation produces: whether a non-nil error was returned
and whether `d.SetId("")` was executed. -/
structure DeleteOutcome where
  errReturned : Bool
  idCleared : Bool
deriving DecidableEq, Repr

/-- `resourceIBMResourceInstanceDelete` after the delete call: a 410 response
on the call is returned as nil (already deleted); any other call error is
returned as an error; otherwise the delete poll runs, an error from it is
returned, and on poll success the identifier is cleared and nil returned. -/
def resourceIBMResourceInstanceDelete (call : DeleteCallResult) (poll : DeletePollResult) :
    DeleteOutcome :=
  match call with
  | DeleteCallResult.callErr code _ =>
    if code == some 410 then
      { errReturned := false, idCleared := false }
    else
      { errReturned := true, idCleared := false }
  | DeleteCallResult.ok =>
    match poll with
    | DeletePollResult.pollErr _ => { errReturned := true, idCleared := false }
    | DeletePollResult.pollOk => { errReturned := false, idCleared := true }

/-! ### Read's timestamp projection (source lines 557-577) -/

/-- `.String()` on a possibly-nil timestamp pointer: `none` is the nil
dereference, which panics. -/
def tsString : Option String → Option String
  | some t => some t
  | none => none

/-- One Go line `if guard != nil then d.Set(field, value.String())`: when the
guard is present the value pointer is dereferenced and the field set; a `none`
value under a present guard is the nil-pointer panic (`none` result). -/
def setIfPresent (guard : Option String) (field : String) (value : Option String) :
    Option (List (String × String)) :=
  if guard.isSome then (tsString value).map (fun v => [(field, v)]) else some []

/-- The timestamp-formatting lines of `resourceIBMResourceInstanceRead`
(source lines 559-575), in source order.  Note the `deleted_at` line: its
guard is `instance.ScheduledReclaimAt != nil` while it dereferences
`instance.DeletedAt` (source lines 566-568).  `none` is a panic; `some`
carries the fields set. -/
def resourceInstanceReadTimestamps (inst : ResourceInstance) :
    Option (List (String × String)) :=
  (setIfPresent inst.RestoredAt "restored_at" inst.RestoredAt).bind fun s1 =>
  (setIfPresent inst.ScheduledReclaimAt "scheduled_reclaim_at" inst.ScheduledReclaimAt).bind fun s2 =>
  (setIfPresent inst.ScheduledReclaimAt "deleted_at" inst.DeletedAt).bind fun s3 =>
  (setIfPresent inst.UpdatedAt "update_at" inst.UpdatedAt).bind fun s4 =>
  (setIfPresent inst.CreatedAt "created_at" inst.CreatedAt).bind fun s5 =>
  some (s1 ++ s2 ++ s3 ++ s4 ++ s5)

/-! ### Catalog offering lookup in Create and Update (source lines 372-389, 625-635) -/

/-- `models.ServiceResourceMetadata` restricted to the flag Create reads. -/
structure ServiceResourceMetadata where
  RCProvisionable : Bool
deriving DecidableEq, Repr

/-- A catalog service offering: `ServiceMetadata` is `some` exactly when the
Go type assertion `Metadata.(*models.ServiceResourceMetadata)` succeeds. -/
structure ServiceOffering where
  DisplayName : String
  ServiceMetadata : Option ServiceResourceMetadata
deriving DecidableEq, Repr

/-- The outcome of `rsCatRepo.FindByName(serviceName, true)`. -/
inductive FindByNameResult where
  | found (offerings : List ServiceOffering)
  | findErr (msg : String)
deriving DecidableEq, Repr

/-- How the orchestrator's offering-resolution step ends: it proceeds with an
offering, returns an error, or panics (the unguarded `serviceOff[0]` on an
empty slice is a runtime index-out-of-range). -/
inductive CreateLookupOutcome where
  | proceed (off : ServiceOffering)
  | errorOut (msg : String)
  | panicked
deriving DecidableEq, Repr

/-- Create's offering resolution (source lines 372-383): a lookup error is
returned; on success `serviceOff[0]` is dereferenced unconditionally, its
metadata type-asserted, and the `RCProvisionable` flag checked. -/
def createResolveOffering (serviceName : String) (res : FindByNameResult) :
    CreateLookupOutcome :=
  match res with
  | FindByNameResult.findErr msg =>
    CreateLookupOutcome.errorOut ("Error retrieving service offering: " ++ msg)
  | FindByNameResult.found serviceOff =>
    match serviceOff with
    | [] => CreateLookupOutcome.panicked
    | off :: _ =>
      match off.ServiceMetadata with
      | some metadata =>
        if metadata.RCProvisionable then
          CreateLookupOutcome.proceed off
        else
          CreateLookupOutcome.errorOut
            (serviceName ++ " cannot be provisioned by resource controller")
      | none =>
        CreateLookupOutcome.errorOut
          ("Cannot create instance of resource " ++ serviceName)

/-- Update's offering resolution on a plan change (source lines 625-635): a
lookup error is returned; on success `serviceOff[0]` is passed unconditionally
to `GetServicePlanID`. -/
def updateResolveOffering (res : FindByNameResult) : CreateLookupOutcome :=
  match res with
  | FindByNameResult.findErr msg =>
    CreateLookupOutcome.errorOut ("Error retrieving service offering: " ++ msg)
  | FindByNameResult.found serviceOff =>
    match serviceOff with
    | [] => CreateLookupOutcome.panicked
    | off :: _ => CreateLookupOutcome.proceed off

/-! ### Update's parameter payload (source lines 638-687) -/

/-- The inputs Update's parameter-payload construction reads from the
declarative state and the live instance.  `serviceEndpoints` is
`d.Get("service_endpoints")`, the empty string when the field is not set;
`parametersOk` is `d.GetOk("parameters")`; `instanceParameters` the live
instance's parameter map fetched when `parameters` changed. -/
structure UpdateConfig where
  hasChangeServiceEndpoints : Bool
  hasChangeParameters : Bool
  serviceEndpoints : String
  parametersOk : Option (List (String × String))
  instanceParameters : List (String × ParamValue)
deriving Repr

/-- The `params` map Update builds (source lines 638-684): seeded from the
top-level field when it changed; when `parameters` changed, the raw map is
coerced entry by entry, then the top-level `service_endpoints` value
overwrites `params["service-endpoints"]` when non-empty, else an existing
`service-endpoints` parameter of the live instance is carried forward. -/
def updateBuildParams (cfg : UpdateConfig) : List (String × ParamValue) :=
  let params : List (String × ParamValue) := []
  let params :=
    if cfg.hasChangeServiceEndpoints then
      mapSet params "service-endpoints" (ParamValue.str cfg.serviceEndpoints)
    else params
  if cfg.hasChangeParameters then
    let params :=
      match cfg.parametersOk with
      | some temp => temp.foldl (fun acc kv => mapSet acc kv.1 (coerceValue kv.2)) params
      | none => params
    if cfg.serviceEndpoints != "" then
      mapSet params "service-endpoints" (ParamValue.str cfg.serviceEndpoints)
    else
      match mapLookup cfg.instanceParameters "service-endpoints" with
      | some p => mapSet params "service-endpoints" p
      | none => params
  else params

/-- `resourceInstanceUpdate.Parameters` (source lines 685-687): the built map
is submitted exactly when `service_endpoints` or `parameters` changed. -/
def updateSubmittedParameters (cfg : UpdateConfig) : Option (List (String × ParamValue)) :=
  if cfg.hasChangeServiceEndpoints || cfg.hasChangeParameters then
    some (updateBuildParams cfg)
  else none

/-- Create's `params` map (source lines 421-451): seeded with the top-level
`service_endpoints` value when set, then the coerced raw map entries. -/
def createBuildParams (serviceEndpointsOk : Option String)
    (parametersOk : Option (List (String × String))) : List (String × ParamValue) :=
  let params : List (String × ParamValue) := []
  let params :=
    match serviceEndpointsOk with
    | some se => mapSet params "service-endpoints" (ParamValue.str se)
    | none => params
  match parametersOk with
  | some temp => temp.foldl (fun acc kv => mapSet acc kv.1 (coerceValue kv.2)) params
  | none => params

/-! ## Helper lemmas -/

theorem listContainsSub_iff (s sub : List Char) :
    listContainsSub s sub = true ↔ sub <:+: s := by
  induction s with
  | nil =>
    simp [listContainsSub, List.isPrefixOf_iff_prefix]
  | cons a t ih =>
    simp [listContainsSub, List.isPrefixOf_iff_prefix, ih, List.infix_cons_iff]

theorem goContains_iff (s sub : String) :
    goContains s sub = true ↔ SubstringOf sub s :=
  listContainsSub_iff s.data sub.data

theorem mapLookup_mapSet_self (m : List (String × ParamValue)) (k : String) (v : ParamValue) :
    mapLookup (mapSet m k v) k = some v := by
  simp [mapLookup, mapSet, List.find?_cons]

theorem dropWhile_beq_eq_dropLeadingChar (c : Char) (l : List Char) :
    l.dropWhile (fun a => a == c) = dropLeadingChar c l := by
  induction l with
  | nil => rfl
  | cons a t ih =>
    by_cases h : a = c
    · simp [List.dropWhile_cons, dropLeadingChar, h, ih]
    · simp [List.dropWhile_cons, dropLeadingChar, h, ih]

theorem trimLeftChar_eq_stripAllLeading (s : String) (c : Char) :
    trimLeftChar s c = stripAllLeading s c := by
  simp [trimLeftChar, stripAllLeading, dropWhile_beq_eq_dropLeadingChar]

theorem trimRightChar_eq_stripAllTrailing (s : String) (c : Char) :
    trimRightChar s c = stripAllTrailing s c := by
  simp [trimRightChar, stripAllTrailing, dropWhile_beq_eq_dropLeadingChar]

theorem trimChar_eq_stripAllBoth (s : String) (c : Char) :
    trimChar s c = stripAllBoth s c := by
  simp [trimChar, stripAllBoth, trimLeftChar_eq_stripAllLeading,
    trimRightChar_eq_stripAllTrailing]

theorem startsWithChar_iff (c : Char) (l : List Char) :
    [c].isPrefixOf l = true ↔ l.head? = some c := by
  cases l with
  | nil => simp [List.isPrefixOf]
  | cons a t =>
    simp only [List.isPrefixOf_cons₂, List.isPrefixOf_nil_left, Bool.and_true, List.head?,
      beq_iff_eq, Option.some.injEq]
    exact eq_comm

theorem goStartsWith_bracket_iff (v : String) :
    goStartsWith v "[" = true ↔ v.data.head? = some '[' := by
  simpa [goStartsWith] using startsWithChar_iff '[' v.data

theorem goEndsWith_bracket_iff (v : String) :
    goEndsWith v "]" = true ↔ v.data.getLast? = some ']' := by
  have : (("]".data).reverse.isPrefixOf v.data.reverse = true) ↔
      v.data.reverse.head? = some ']' := startsWithChar_iff ']' v.data.reverse
  simpa [goEndsWith, List.isSuffixOf] using this

theorem pollClassify_state_eq (pending target : List String) (s : String) :
    pollClassify pending target (RefreshOutcome.state s) =
      if s ∈ target then PollStep.reachedTarget s
      else if s ∈ pending then PollStep.keepPolling
      else PollStep.unexpectedState s := by
  simp only [pollClassify]
  by_cases ht : s ∈ target
  · simp [List.any_beq, ht]
  · by_cases hp : s ∈ pending <;> simp [List.any_beq, ht, hp]

/-! ## Claim theorems -/

/-- C1: the claim says delete polling treats a 404 fetch as immediate success;
the code instead maps a 404 to the state string `"active"`, which is in the
delete Pending list and NOT in the delete Target list, so the engine keeps
polling rather than returning success. -/
theorem c1_delete_poll_404_keeps_polling :
    deleteRefresh "inst-1" (GetInstanceResult.fetchErr (some 404) "not found") =
      RefreshOutcome.state "active" ∧
    waitForResourceInstanceDeleteStep "inst-1" (GetInstanceResult.fetchErr (some 404) "not found") =
      PollStep.keepPolling ∧
    "active" ∈ deletePendingStates ∧ "active" ∉ deleteTargetStates := by
  refine ⟨rfl, rfl, ?_, ?_⟩ <;> decide

/-- C2: the claim says each timestamp is formatted only after checking that
the SAME timestamp is present; the code guards `deleted_at` on
`ScheduledReclaimAt` while dereferencing `DeletedAt`, so an instance with
`scheduled_reclaim_at` present and `deleted_at` absent makes Read dereference
a nil timestamp (the `none` outcome); with `deleted_at` present the
projection succeeds. -/
theorem c2_read_deleted_at_nil_dereference :
    resourceInstanceReadTimestamps
      { ID := "inst-1", State := "active", RestoredAt := none,
        ScheduledReclaimAt := some "2021-05-05T00:00:00Z", DeletedAt := none,
        UpdatedAt := some "2021-05-04T00:00:00Z", CreatedAt := some "2021-05-01T00:00:00Z",
        Parameters := [] } = none ∧
    resourceInstanceReadTimestamps
      { ID := "inst-1", State := "active", RestoredAt := none,
        ScheduledReclaimAt := some "2021-05-05T00:00:00Z",
        DeletedAt := some "2021-05-03T00:00:00Z",
        UpdatedAt := some "2021-05-04T00:00:00Z", CreatedAt := some "2021-05-01T00:00:00Z",
        Parameters := [] } =
      some [("scheduled_reclaim_at", "2021-05-05T00:00:00Z"),
            ("deleted_at", "2021-05-03T00:00:00Z"),
            ("update_at", "2021-05-04T00:00:00Z"),
            ("created_at", "2021-05-01T00:00:00Z")] :=
  ⟨rfl, rfl⟩

/-- C7: during create and update polling a 404 fetch is propagated as a
non-nil refresh error stating the instance no longer exists, which the engine
classifies as a fatal failure — never success, never continue. -/
theorem c7_create_update_poll_404_fatal : ∀ (id msg : String),
    createRefresh id (GetInstanceResult.fetchErr (some 404) msg) =
      RefreshOutcome.refreshErr
        ("The resource instance " ++ id ++ " does not exist anymore: " ++ msg) ∧
    waitForResourceInstanceCreateStep id (GetInstanceResult.fetchErr (some 404) msg) =
      PollStep.fatalError ∧
    updateRefresh id (GetInstanceResult.fetchErr (some 404) msg) =
      RefreshOutcome.refreshErr
        ("The resource instance " ++ id ++ " does not exist anymore: " ++ msg) ∧
    waitForResourceInstanceUpdateStep id (GetInstanceResult.fetchErr (some 404) msg) =
      PollStep.fatalError := by
  intro id msg
  exact ⟨rfl, rfl, rfl, rfl⟩

/-- C9: Delete submits a recursive delete request; a 410 response on the
delete call is returned as success (no error, nothing cleared by the function
itself); a non-410 call error is returned as an error; on a successful call
the poll outcome decides: poll success clears the identifier and returns nil,
a poll error is returned with nothing cleared. -/
theorem c9_delete_recursive_410_clear :
    ∀ (id msg : String) (code : Option Nat) (poll : DeletePollResult),
    (deleteResourceInstanceOptions id).Recursive = true ∧
    resourceIBMResourceInstanceDelete (DeleteCallResult.callErr (some 410) msg) poll =
      { errReturned := false, idCleared := false } ∧
    resourceIBMResourceInstanceDelete (DeleteCallResult.callErr code msg) poll =
      (if code == some 410 then { errReturned := false, idCleared := false }
       else { errReturned := true, idCleared := false }) ∧
    resourceIBMResourceInstanceDelete DeleteCallResult.ok DeletePollResult.pollOk =
      { errReturned := false, idCleared := true } ∧
    (∀ m : String,
      resourceIBMResourceInstanceDelete DeleteCallResult.ok (DeletePollResult.pollErr m) =
        { errReturned := true, idCleared := false }) := by
  intro id msg code poll
  exact ⟨rfl, rfl, rfl, rfl, fun m => rfl⟩

/-- C10: after a successful catalog lookup both Create and Update dereference
the first offering unconditionally: the resolution step panics exactly when
the successful lookup result is the empty list, and a lookup error never
reaches the dereference. -/
theorem c10_offering_index_unguarded :
    ∀ (serviceName msg : String) (offs : List ServiceOffering),
    (createResolveOffering serviceName (FindByNameResult.found offs) =
        CreateLookupOutcome.panicked ↔ offs = []) ∧
    (updateResolveOffering (FindByNameResult.found offs) =
        CreateLookupOutcome.panicked ↔ offs = []) ∧
    createResolveOffering serviceName (FindByNameResult.findErr msg) ≠
      CreateLookupOutcome.panicked ∧
    updateResolveOffering (FindByNameResult.findErr msg) ≠
      CreateLookupOutcome.panicked := by
  intro serviceName msg offs
  refine ⟨?_, ?_, by simp [createResolveOffering], by simp [updateResolveOffering]⟩
  · cases offs with
    | nil => simp [createResolveOffering]
    | cons o rest =>
      cases h : o.ServiceMetadata with
      | none => simp [createResolveOffering, h]
      | some md => by_cases hp : md.RCProvisionable <;> simp [createResolveOffering, h, hp]
  · cases offs with
    | nil => simp [updateResolveOffering]
    | cons o rest => simp [updateResolveOffering]

/-- C3: the Deployment Filter returns exactly the RC-compatible descriptors
whose location equals the target location, compared with string equality and
preserving input order and multiplicity, together with a location set holding
precisely the locations of all RC-compatible descriptors whether matched or
not; descriptors without the compatibility flag contribute to neither output,
and when nothing matches the match list is simply empty (the function is
total, no error). -/
theorem c3_filter_deployments_exact :
    ∀ (ds : List ServiceDeployment) (L : String),
    (filterDeployments ds L).1 =
      ds.filter (fun d => d.Metadata.RCCompatible && (d.Metadata.Deployment.Location == L)) ∧
    ∀ l : String, l ∈ (filterDeployments ds L).2 ↔
      ∃ d, d ∈ ds ∧ d.Metadata.RCCompatible = true ∧ d.Metadata.Deployment.Location = l := by
  intro ds L
  induction ds with
  | nil =>
    exact ⟨rfl, by intro l; simp [filterDeployments]⟩
  | cons d rest ih =>
    constructor
    · cases hc : d.Metadata.RCCompatible with
      | true =>
        by_cases hl : d.Metadata.Deployment.Location = L
        · simp [filterDeployments, hc, hl, List.filter_cons, ih.1]
        · simp [filterDeployments, hc, hl, List.filter_cons, ih.1]
      | false =>
        simp [filterDeployments, hc, List.filter_cons, ih.1]
    · intro l
      cases hc : d.Metadata.RCCompatible with
      | true =>
        simp only [filterDeployments, hc, if_true]
        rw [Finset.mem_insert, ih.2 l]
        constructor
        · rintro (rfl | ⟨d', hd', hcomp, hloc⟩)
          · exact ⟨d, List.mem_cons_self d rest, hc, rfl⟩
          · exact ⟨d', List.mem_cons_of_mem d hd', hcomp, hloc⟩
        · rintro ⟨d', hd', hcomp, hloc⟩
          rcases List.mem_cons.mp hd' with rfl | hd'
          · exact Or.inl hloc.symm
          · exact Or.inr ⟨d', hd', hcomp, hloc⟩
      | false =>
        simp only [filterDeployments, hc]
        rw [if_neg (by simp), ih.2 l]
        constructor
        · rintro ⟨d', hd', hcomp, hloc⟩
          exact ⟨d', List.mem_cons_of_mem d hd', hcomp, hloc⟩
        · rintro ⟨d', hd', hcomp, hloc⟩
          rcases List.mem_cons.mp hd' with rfl | hd'
          · rw [hc] at hcomp; exact absurd hcomp (by simp)
          · exact ⟨d', hd', hcomp, hloc⟩

/-- C4, counterexample: reading "has the brackets stripped" as removing the
one leading `[` and the one trailing `]` disagrees with the code, which uses
Go `strings.TrimLeft`/`TrimRight` and therefore strips ALL leading `[` and
ALL trailing `]` characters: on `"[[a,b]]"` the code yields
`["a", "b"]` while the claim's reading yields `["[a", "b]"]`. -/
theorem c4_bracket_strip_counterexample :
    coerceValue "[[a,b]]" = ParamValue.strList ["a", "b"] ∧
    coerceValueClaim "[[a,b]]" = ParamValue.strList ["[a", "b]"] ∧
    coerceValue "[[a,b]]" ≠ coerceValueClaim "[[a,b]]" := by
  refine ⟨by decide, by decide, by decide⟩

/-- C4, amended: Parameter Coercion maps every entry as the claim says except
that a bracket-delimited value has ALL leading `[` characters and ALL
trailing `]` characters stripped (not just the outer pair) before the split
on `,` and the per-element trim of all leading/trailing double-quote
characters.  `coerceValueAmended` states this with independent machinery. -/
theorem c4_coercion_amended : ∀ v : String, coerceValue v = coerceValueAmended v := by
  intro v
  by_cases h1 : v = "true"
  · subst h1; rfl
  by_cases h2 : v = "false"
  · subst h2; rfl
  have hb1 : (v == "true") = false := by simp [h1]
  have hb2 : (v == "false") = false := by simp [h2]
  unfold coerceValue coerceValueAmended
  rw [hb1, hb2]
  simp only [Bool.or_self, Bool.false_or, if_false, Bool.false_eq_true]
  rw [if_neg h1, if_neg h2]
  by_cases hs : v.data.head? = some '[' ∧ v.data.getLast? = some ']'
  · have hp : goStartsWith v "[" = true := (goStartsWith_bracket_iff v).mpr hs.1
    have hq : goEndsWith v "]" = true := (goEndsWith_bracket_iff v).mpr hs.2
    rw [hp, hq, if_pos hs]
    simp only [Bool.and_self, if_true]
    simp [trimLeftChar_eq_stripAllLeading, trimRightChar_eq_stripAllTrailing,
      trimChar_eq_stripAllBoth]
  · have hb : (goStartsWith v "[" && goEndsWith v "]") = false := by
      rcases Bool.eq_false_or_eq_true (goStartsWith v "[" && goEndsWith v "]") with h | h
      · exact absurd ⟨(goStartsWith_bracket_iff v).mp (Bool.and_eq_true_iff.mp h).1,
          (goEndsWith_bracket_iff v).mp (Bool.and_eq_true_iff.mp h).2⟩ hs
      · exact h
    rw [hb, if_neg hs]
    simp

/-- C5: in Update's submitted parameter payload the non-empty top-level
`service_endpoints` value overwrites any `service-endpoints` entry coming
from the generic parameter map, and when the top-level field is not set (the
empty string) an existing `service-endpoints` parameter of the live instance
is carried forward instead. -/
theorem c5_service_endpoints_precedence (cfg : UpdateConfig)
    (h : cfg.hasChangeParameters = true) :
    updateSubmittedParameters cfg = some (updateBuildParams cfg) ∧
    (∀ (m : List (String × String)) (v : String), cfg.parametersOk = some m →
      ("service-endpoints", v) ∈ m → cfg.serviceEndpoints ≠ "" →
      mapLookup (updateBuildParams cfg) "service-endpoints" =
        some (ParamValue.str cfg.serviceEndpoints)) ∧
    (∀ p : ParamValue, cfg.serviceEndpoints = "" →
      mapLookup cfg.instanceParameters "service-endpoints" = some p →
      mapLookup (updateBuildParams cfg) "service-endpoints" = some p) := by
  refine ⟨by simp [updateSubmittedParameters, h], ?_, ?_⟩
  · intro m v hm hmem hne
    have hbne : (cfg.serviceEndpoints != "") = true := bne_iff_ne.mpr hne
    unfold updateBuildParams
    rw [h]
    simp only [if_true, hbne]
    exact mapLookup_mapSet_self _ _ _
  · intro p he hp
    have hbne : (cfg.serviceEndpoints != "") = false := by simp [he]
    unfold updateBuildParams
    rw [h]
    simp only [if_true, hbne, Bool.false_eq_true, if_false, hp]
    exact mapLookup_mapSet_self _ _ _

/-- C5 witness: both branches at concrete configurations. -/
theorem c5_service_endpoints_precedence_witness :
    mapLookup (updateBuildParams
      { hasChangeServiceEndpoints := true, hasChangeParameters := true,
        serviceEndpoints := "public",
        parametersOk := some [("service-endpoints", "private"), ("speed", "10")],
        instanceParameters := [] }) "service-endpoints" = some (ParamValue.str "public") ∧
    mapLookup (updateBuildParams
      { hasChangeServiceEndpoints := false, hasChangeParameters := true,
        serviceEndpoints := "",
        parametersOk := some [("speed", "10")],
        instanceParameters := [("service-endpoints", ParamValue.str "private")] })
      "service-endpoints" = some (ParamValue.str "private") := by
  constructor
  · exact (c5_service_endpoints_precedence _ rfl).2.1
      [("service-endpoints", "private"), ("speed", "10")] "private" rfl (by simp) (by decide)
  · exact (c5_service_endpoints_precedence _ rfl).2.2 (ParamValue.str "private") rfl rfl

/-- C8: Exists returns `(false, nil)` without clearing on a 404 fetch;
returns `(false, nil)` and clears the stored identifier when the fetched
state contains `"removed"` or `"pending_reclamation"`; and on any other
successful fetch does not clear the identifier (returning the ID
comparison). -/
theorem c8_exists_absence_semantics :
    ∀ (id msg : String) (inst : ResourceInstance),
    resourceIBMResourceInstanceExists id (GetInstanceResult.fetchErr (some 404) msg) =
      { found := false, errReturned := false, idCleared := false } ∧
    ((SubstringOf "removed" inst.State ∨ SubstringOf "pending_reclamation" inst.State) →
      resourceIBMResourceInstanceExists id (GetInstanceResult.ok inst) =
        { found := false, errReturned := false, idCleared := true }) ∧
    (¬(SubstringOf "removed" inst.State ∨ SubstringOf "pending_reclamation" inst.State) →
      resourceIBMResourceInstanceExists id (GetInstanceResult.ok inst) =
        { found := inst.ID == id, errReturned := false, idCleared := false }) := by
  intro id msg inst
  refine ⟨rfl, ?_, ?_⟩
  · intro h
    have hb : (goContains inst.State "removed" ||
        goContains inst.State rsInstanceReclamation) = true := by
      rcases h with h | h
      · simp only [Bool.or_eq_true]
        exact Or.inl ((goContains_iff _ _).mpr h)
      · simp only [Bool.or_eq_true]
        exact Or.inr ((goContains_iff _ _).mpr h)
    simp [resourceIBMResourceInstanceExists, hb]
  · intro h
    push_neg at h
    have g1 : goContains inst.State "removed" = false :=
      Bool.eq_false_iff.mpr (fun hx => h.1 ((goContains_iff _ _).mp hx))
    have g2 : goContains inst.State rsInstanceReclamation = false :=
      Bool.eq_false_iff.mpr (fun hx => h.2 ((goContains_iff _ _).mp hx))
    simp [resourceIBMResourceInstanceExists, g1, g2]

set_option linter.unnecessarySeqFocus false in
/-- C6: the polling state tables, observed on a successfully fetched
instance: create treats `failed` as fatal, `active` as target and
`provisioning`/`in progress`/`inactive` as pending; update the same without
`provisioning`; delete treats `failed` as fatal, `removed` and
`pending_reclamation` as targets and `in progress`/`inactive`/`active` as
pending; in each table any other state is an unexpected-state failure. -/
theorem c6_poll_state_tables : ∀ (id : String) (inst : ResourceInstance),
    waitForResourceInstanceCreateStep id (GetInstanceResult.ok inst) =
      (if inst.State = "failed" then PollStep.fatalError
       else if inst.State = "active" then PollStep.reachedTarget inst.State
       else if inst.State = "provisioning" ∨ inst.State = "in progress" ∨
           inst.State = "inactive" then PollStep.keepPolling
       else PollStep.unexpectedState inst.State) ∧
    waitForResourceInstanceUpdateStep id (GetInstanceResult.ok inst) =
      (if inst.State = "failed" then PollStep.fatalError
       else if inst.State = "active" then PollStep.reachedTarget inst.State
       else if inst.State = "in progress" ∨ inst.State = "inactive" then PollStep.keepPolling
       else PollStep.unexpectedState inst.State) ∧
    waitForResourceInstanceDeleteStep id (GetInstanceResult.ok inst) =
      (if inst.State = "failed" then PollStep.fatalError
       else if inst.State = "removed" ∨ inst.State = "pending_reclamation" then
         PollStep.reachedTarget inst.State
       else if inst.State = "in progress" ∨ inst.State = "inactive" ∨
           inst.State = "active" then PollStep.keepPolling
       else PollStep.unexpectedState inst.State) := by
  intro id inst
  by_cases hf : inst.State = "failed"
  · have hfb : (inst.State == rsInstanceFailStatus) = true := by
      simp [rsInstanceFailStatus, hf]
    refine ⟨?_, ?_, ?_⟩ <;>
      simp [waitForResourceInstanceCreateStep, waitForResourceInstanceUpdateStep,
        waitForResourceInstanceDeleteStep, createRefresh, updateRefresh, deleteRefresh,
        hfb, hf, pollClassify, rsInstanceFailStatus]
  · have hfb : (inst.State == rsInstanceFailStatus) = false := by
      simp [rsInstanceFailStatus, hf]
    refine ⟨?_, ?_, ?_⟩ <;>
      simp only [waitForResourceInstanceCreateStep, waitForResourceInstanceUpdateStep,
        waitForResourceInstanceDeleteStep, createRefresh, updateRefresh, deleteRefresh,
        hfb, Bool.false_eq_true, if_false, pollClassify_state_eq, if_neg hf,
        createPendingStates, createTargetStates, updatePendingStates,
        updateTargetStates, deletePendingStates, deleteTargetStates,
        rsInstanceSuccessStatus, rsInstanceProgressStatus, rsInstanceProvisioningStatus,
        rsInstanceInactiveStatus, rsInstanceRemovedStatus, rsInstanceReclamation,
        List.mem_cons, List.mem_singleton, List.not_mem_nil, or_false] <;>
      split_ifs <;>
      first | rfl | tauto
